import Mathlib

/-
  A verification development for the HomeHero marketplace backend.

  The Express/Mongoose handlers of the repository are shallowly embedded as
  pure Lean functions over explicit list-valued stores.  JavaScript numbers
  are modelled as rationals, strings as Lean strings (with the ASCII
  fragment of `toLowerCase` and the relevant regular expression character
  classes modelled explicitly), MongoDB collections as lists, and the
  store's unique indexes as explicit membership checks at insert time.
  Each HTTP outcome (201/200/400/401/403/404/409/500) is a constructor of
  the `Res` type.
-/

namespace HomeHero

/-- ASCII model of JavaScript `String.prototype.toLowerCase` on a single
character: code points 65-90 (`A`-`Z`) are shifted by 32, everything else
is left unchanged. -/
def toLowerJS (c : Char) : Char :=
  if 65 ≤ c.toNat ∧ c.toNat ≤ 90 then Char.ofNat (c.toNat + 32) else c

/-- JavaScript `s.toLowerCase()` on a whole string. -/
def lowerStr (s : String) : String := String.mk (s.data.map toLowerJS)

/-- The JS regex class `\w`, i.e. `[A-Za-z0-9_]` (note: it contains the
underscore). -/
def isWordCharJS (c : Char) : Bool :=
  decide ((97 ≤ c.toNat ∧ c.toNat ≤ 122) ∨ (65 ≤ c.toNat ∧ c.toNat ≤ 90) ∨
    (48 ≤ c.toNat ∧ c.toNat ≤ 57) ∨ c.toNat = 95)

/-- The JS regex class `\s`, restricted to the ASCII whitespace characters
(space, tab, line feed, carriage return, vertical tab, form feed). -/
def isSpaceJS (c : Char) : Bool :=
  decide (c.toNat = 32 ∨ c.toNat = 9 ∨ c.toNat = 10 ∨ c.toNat = 13 ∨
    c.toNat = 11 ∨ c.toNat = 12)

/-- JavaScript `String.prototype.trim`: strip leading and trailing
whitespace. -/
def trimJS (l : List Char) : List Char :=
  ((l.dropWhile isSpaceJS).reverse.dropWhile isSpaceJS).reverse

/-- `.replace(/\s+/g, "-")`: every maximal run of whitespace characters is
replaced by a single hyphen.  The boolean records whether the previous
character belonged to a whitespace run. -/
def collapseRuns : Bool → List Char → List Char
  | _, [] => []
  | prevSpace, c :: rest =>
    if isSpaceJS c then
      if prevSpace then collapseRuns true rest else '-' :: collapseRuns true rest
    else c :: collapseRuns false rest

/-- The slug derivation of `slugify` (src/unnamed/part_004 line 606):
`s.toLowerCase().trim().replace(/[^\w\s-]/g, "").replace(/\s+/g, "-").slice(0, 60)`. -/
def slugChars (l : List Char) : List Char :=
  (collapseRuns false
    ((trimJS (l.map toLowerJS)).filter
      (fun c => isWordCharJS c || isSpaceJS c || c == '-'))).take 60

/-- `slugify` from src/unnamed/part_004 line 606. -/
def slugify (s : String) : String := String.mk (slugChars s.data)

/-- Decimal digit to character, used to model JS template-string rendering
of the numeric slug suffix. -/
def digitChar : Nat → Char
  | 0 => '0' | 1 => '1' | 2 => '2' | 3 => '3' | 4 => '4'
  | 5 => '5' | 6 => '6' | 7 => '7' | 8 => '8' | 9 => '9'
  | _ => '?'

/-- Decimal rendering of a natural number (big-endian), as JS `String(n)`. -/
def natChars (n : Nat) : List Char :=
  if n = 0 then ['0'] else ((Nat.digits 10 n).map digitChar).reverse

/-- The k-th candidate slug probed by `uniqueSlugForNew`: the base slug
first, then `base-2`, `base-3`, ... (the JS loop starts its counter at 2). -/
def candidate (base : List Char) : Nat → String
  | 0 => String.mk base
  | k + 1 => String.mk (base ++ '-' :: natChars (k + 2))

/-- The probe loop of `uniqueSlugForNew` / `uniqueSlugForUpdate`
(src/unnamed/part_004 lines 609-622): while the candidate slug is occupied,
move to the next numeric suffix.  The JS loop is unbounded; the `fuel`
argument only makes the recursion structural, and `probe_terminates` below
shows that fuel `occupied.length + 1` never runs out. -/
def probeSlug (occupied : List String) (base : List Char) : Nat → Nat → Option String
  | 0, _ => none
  | fuel + 1, k =>
    if candidate base k ∈ occupied then probeSlug occupied base fuel (k + 1)
    else some (candidate base k)

-- ---------------- Data model ----------------

/-- An embedded review subdocument (ReviewSchema, src/unnamed/part_004
lines 555-560).  Timestamps are opaque naturals. -/
structure Review where
  userEmail : String
  rating : ℚ
  comment : String
  date : Nat
deriving DecidableEq, Repr

/-- A service document (ServiceSchema, src/unnamed/part_004 lines 562-577). -/
structure Service where
  id : String
  name : String
  slug : String
  category : String
  price : ℚ
  description : String
  image : String
  providerName : String
  providerEmail : String
  ratingAvg : ℚ
  reviews : List Review
  views : Nat
deriving DecidableEq, Repr

/-- A calendar date; only year and month are inspected (by the analytics
pipeline), the day disambiguates distinct booking dates. -/
structure DateYMD where
  y : Nat
  m : Nat
  d : Nat
deriving DecidableEq, Repr

/-- A booking document (BookingSchema, src/unnamed/part_004 lines 580-590).
The schema carries a unique compound index on
(userEmail, serviceId, bookingDate). -/
structure Booking where
  id : String
  userEmail : String
  serviceId : String
  bookingDate : DateYMD
  price : ℚ
deriving DecidableEq, Repr

/-- A favorite document (FavoriteSchema, src/unnamed/part_004 lines
592-599), with a unique compound index on (userEmail, serviceId). -/
structure Favorite where
  id : String
  userEmail : String
  serviceId : String
deriving DecidableEq, Repr

/-- HTTP outcomes of the handlers: 201, 200, 400, 404, 403, 409, 401 and
the generic 500 carrying the thrown message. -/
inductive Res where
  | created
  | ok
  | invalidInput
  | notFound
  | forbidden
  | conflict
  | unauthorized
  | serverError (msg : String)
deriving DecidableEq, Repr

-- ---------------- Slug allocation ----------------

/-- `uniqueSlugForNew` (src/unnamed/part_004 lines 609-615): probe the
service collection for occupancy of each candidate slug in turn. -/
def uniqueSlugForNew (store : List Service) (name : String) : Option String :=
  let occupied := store.map Service.slug
  probeSlug occupied (slugChars name.data) (occupied.length + 1) 0

/-- `uniqueSlugForUpdate` (src/unnamed/part_004 lines 616-622): same probe
but excluding the renamed document's own identity. -/
def uniqueSlugForUpdate (store : List Service) (name : String) (id : String) :
    Option String :=
  let occupied := (store.filter (fun s => decide (s.id ≠ id))).map Service.slug
  probeSlug occupied (slugChars name.data) (occupied.length + 1) 0

/-- The `POST /services` handler (src/unnamed/part_004 lines 860-894),
modelled with two store snapshots: `probeStore` is the collection the probe
loop reads and `commitStore` the collection at `Service.create` commit
time (they differ exactly when a concurrent writer interleaves).  A
duplicate-slug rejection by the unique index is caught by the generic
`catch` and returned as a 500 with the raw message — there is no retry. -/
def createService (probeStore commitStore : List Service)
    (name category description image providerName providerEmailBody : String)
    (price : Option ℚ) (vt : Bool) (tokenEmailRaw : String) (newId : String) :
    Res × List Service :=
  let tokenEmail := lowerStr tokenEmailRaw
  if name = "" ∨ category = "" ∨ price = none ∨ description = "" ∨ image = "" then
    (.invalidInput, commitStore)
  else
    match uniqueSlugForNew probeStore name with
    | none => (.serverError "allocation", commitStore)
    | some slug =>
      if price.getD 0 < 0 then (.serverError "validation", commitStore)
      else if slug ∈ commitStore.map Service.slug then
        (.serverError "duplicate key", commitStore)
      else
        (.created, commitStore ++ [{
          id := newId, name := name, slug := slug, category := category,
          price := price.getD 0, description := description, image := image,
          providerName := providerName,
          providerEmail := if vt ∧ tokenEmail ≠ "" then tokenEmail
                           else lowerStr providerEmailBody,
          ratingAvg := 0, reviews := [], views := 0 }])

-- ---------------- Review aggregator ----------------

/-- `Number(x.toFixed(2))`: round to two decimal places (ties away from
zero coincide with `round` on the non-negative values occurring here). -/
def round2 (q : ℚ) : ℚ := (round (100 * q) : ℤ) / 100

/-- The sum the handler computes with
`reviews.reduce((acc, r) => acc + (r.rating || 0), 0)`. -/
def ratingSum (revs : List Review) : ℚ := (revs.map Review.rating).sum

/-- The aggregate recomputation of the review handler
(src/unnamed/part_004 lines 1030-1031):
`reviews.length ? Number((sum / reviews.length).toFixed(2)) : 0`. -/
def ratingAvgOf (revs : List Review) : ℚ :=
  if revs.length = 0 then 0 else round2 (ratingSum revs / (revs.length : ℚ))

/-- The in-place update / append of the review handler (src/unnamed/part_004
lines 1022-1029): the first review whose `userEmail` matches is overwritten
(comment only when a non-empty one was supplied, timestamp refreshed);
otherwise a new review is appended. -/
def upsertReview (email : String) (rating : ℚ) (comment : String) (now : Nat) :
    List Review → List Review
  | [] => [{ userEmail := email, rating := rating, comment := comment, date := now }]
  | r :: rest =>
    if r.userEmail = email then
      { userEmail := r.userEmail, rating := rating,
        comment := if comment = "" then r.comment else comment,
        date := now } :: rest
    else r :: upsertReview email rating comment now rest

/-- The mongoose validator on `ReviewSchema.rating` (`min: 1, max: 5`),
run by `svc.save()`. -/
def validReview (r : Review) : Bool := decide (1 ≤ r.rating ∧ r.rating ≤ 5)

/-- `svc.save()` persists the updated document under its identity: replace
the first document with the given id. -/
def replaceFirst : List Service → String → Service → List Service
  | [], _, _ => []
  | s :: rest, sid, svc =>
    if s.id = sid then svc :: rest else s :: replaceFirst rest sid svc

/-- The `POST /services/:id/reviews` handler (src/unnamed/part_004 lines
1005-1038): falsy rating is a 400; a reviewer without a booking of the
service is a 403; a missing service a 404; then the review set is upserted,
`ratingAvg` recomputed from the full updated set, and the document saved
(the save re-runs the rating validators; a violation leaves the store
unchanged and surfaces as a 500). -/
def submitReview (services : List Service) (bookings : List Booking)
    (sid emailRaw : String) (rating : ℚ) (comment : String) (now : Nat) :
    Res × List Service :=
  if rating = 0 then (.invalidInput, services)
  else
    let e := lowerStr emailRaw
    if bookings.any (fun b => decide (b.userEmail = e ∧ b.serviceId = sid)) then
      match services.find? (fun s => decide (s.id = sid)) with
      | none => (.notFound, services)
      | some svc =>
        let revs := upsertReview e rating comment now svc.reviews
        if revs.all validReview then
          (.created,
           replaceFirst services sid
             { svc with reviews := revs, ratingAvg := ratingAvgOf revs })
        else (.serverError "validation", services)
    else (.forbidden, services)

-- ---------------- Booking ledger ----------------

/-- The booking owner identity: the token email under verification,
otherwise the lowercased body email (src/unnamed/part_004 line 959). -/
def bookingEmail (vt : Bool) (tokenEmailRaw bodyEmail : String) : String :=
  if vt then lowerStr tokenEmailRaw else lowerStr bodyEmail

/-- The `POST /bookings` handler of src/unnamed/part_004 lines 942-969.
Required fields are checked first (400), then the referenced service (404),
then — only under token verification — the self-booking rule (403).  The
write relies on the store's unique compound index on
(userEmail, serviceId, bookingDate); its rejection (`e.code === 11000`) is
translated to a 409 "Already booked this date". -/
def createBooking (services : List Service) (bookings : List Booking)
    (vt : Bool) (tokenEmailRaw bodyEmail sid : String)
    (bdate : Option DateYMD) (price : Option ℚ) (newId : String) :
    Res × List Booking :=
  let tokenEmail := lowerStr tokenEmailRaw
  if vt ∧ tokenEmail = "" then (.unauthorized, bookings)
  else if sid = "" ∨ bdate = none ∨ price = none then (.invalidInput, bookings)
  else
    match services.find? (fun s => decide (s.id = sid)) with
    | none => (.notFound, bookings)
    | some svc =>
      if vt ∧ svc.providerEmail = tokenEmail then (.forbidden, bookings)
      else
        match bdate, price with
        | some d, some p =>
          let e := bookingEmail vt tokenEmailRaw bodyEmail
          if p < 0 then (.serverError "validation", bookings)
          else if bookings.any (fun b =>
              decide (b.userEmail = e ∧ b.serviceId = sid ∧ b.bookingDate = d)) then
            (.conflict, bookings)
          else
            (.created, bookings ++
              [{ id := newId, userEmail := e, serviceId := sid,
                 bookingDate := d, price := p }])
        | _, _ => (.invalidInput, bookings)

/-- The `POST /` booking handler of src/routes/bookings.routes.js lines
9-35 (client-supplied `userEmail`, no token).  The order of the checks:
required fields (400), service existence (404), self-booking (403).  Its
Booking model (src/unnamed/part_005) declares no unique compound index and
the `catch` has no duplicate-key branch, so a store-level failure would be
a generic 500. -/
def createBookingR (services : List Service) (bookings : List Booking)
    (userEmail sid : String) (bdate : Option DateYMD) (price : Option ℚ)
    (newId : String) : Res × List Booking :=
  if userEmail = "" ∨ sid = "" ∨ bdate = none ∨ price = none then
    (.invalidInput, bookings)
  else
    match services.find? (fun s => decide (s.id = sid)) with
    | none => (.notFound, bookings)
    | some svc =>
      if lowerStr svc.providerEmail = lowerStr userEmail then (.forbidden, bookings)
      else
        match bdate, price with
        | some d, some p =>
          if p < 0 then (.serverError "validation", bookings)
          else
            (.created, bookings ++
              [{ id := newId, userEmail := lowerStr userEmail, serviceId := sid,
                 bookingDate := d, price := p }])
        | _, _ => (.invalidInput, bookings)

/-- The `DELETE /:id` booking handler of src/routes/bookings.routes.js
lines 54-70: a missing booking is a 404; a supplied (truthy) requester
email differing from the owner is a 403; otherwise — including when no
requester email is supplied at all — the booking is hard-deleted. -/
def deleteBooking (bookings : List Booking) (bid userEmail : String) :
    Res × List Booking :=
  match bookings.find? (fun b => decide (b.id = bid)) with
  | none => (.notFound, bookings)
  | some b =>
    if userEmail ≠ "" ∧ b.userEmail ≠ lowerStr userEmail then
      (.forbidden, bookings)
    else (.ok, bookings.eraseP (fun b => decide (b.id = bid)))

-- ---------------- Favorites ----------------

/-- The `POST /favorites` handler (src/unnamed/part_004 lines 1041-1058):
an atomic `findOneAndUpdate` upsert keyed on (userEmail, serviceId); both
the inserting and the already-present case respond 201 with the document. -/
def favUpsert (favs : List Favorite) (vt : Bool)
    (tokenEmailRaw bodyEmail sid newId : String) : Res × List Favorite :=
  let e := if vt then lowerStr tokenEmailRaw else lowerStr bodyEmail
  if sid = "" then (.invalidInput, favs)
  else if favs.any (fun f => decide (f.userEmail = e ∧ f.serviceId = sid)) then
    (.created, favs)
  else (.created, favs ++ [{ id := newId, userEmail := e, serviceId := sid }])

/-- Number of favorites recorded for one (userEmail, serviceId) pair. -/
def pairCount (favs : List Favorite) (e sid : String) : Nat :=
  favs.countP (fun f => decide (f.userEmail = e ∧ f.serviceId = sid))

/-- The invariant enforced by the unique compound index of FavoriteSchema:
at most one favorite per (userEmail, serviceId) pair. -/
def UniqueFavs (favs : List Favorite) : Prop :=
  ∀ e sid, pairCount favs e sid ≤ 1

-- ---------------- Analytics rollup ----------------

/-- The grouping key of the analytics pipeline: `$year`/`$month` of the
booking date. -/
def bookingKey (b : Booking) : Nat × Nat := (b.bookingDate.y, b.bookingDate.m)

/-- Chronological order on (year, month) keys, the order of the pipeline's
sort stage. -/
def lexLe (a b : Nat × Nat) : Prop :=
  a.1 < b.1 ∨ (a.1 = b.1 ∧ a.2 ≤ b.2)

instance : DecidableRel lexLe := fun a b => by
  unfold lexLe; infer_instance

instance : IsTotal (Nat × Nat) lexLe := by
  constructor
  intro a b
  obtain ⟨a1, a2⟩ := a
  obtain ⟨b1, b2⟩ := b
  unfold lexLe
  dsimp
  omega

instance : IsTrans (Nat × Nat) lexLe := by
  constructor
  intro a b c
  obtain ⟨a1, a2⟩ := a
  obtain ⟨b1, b2⟩ := b
  obtain ⟨c1, c2⟩ := c
  unfold lexLe
  dsimp
  omega

/-- The JS month label `` `${y}-${String(m).padStart(2, "0")}` ``. -/
def monthLabel (y m : Nat) : String :=
  String.mk (natChars y ++ '-' ::
    (if m < 10 then '0' :: natChars m else natChars m))

/-- One element of the emitted series.  `ym` retains the numeric grouping
key of the pipeline (the sort happens on it, before the label is built). -/
structure RollupEntry where
  ym : Nat × Nat
  month : String
  count : Nat
  revenue : ℚ
deriving DecidableEq, Repr

/-- The `$match`/`$group`/`$sort` pipeline of `GET /provider/analytics`
(src/unnamed/part_004 lines 833-849): keep the bookings of the given
services, group them by (year, month), count them and sum their prices,
and emit the groups in ascending key order. -/
def rollupSeries (bookings : List Booking) (ids : List String) : List RollupEntry :=
  let matched := bookings.filter (fun b => ids.contains b.serviceId)
  let keys := (matched.map bookingKey).dedup
  (keys.insertionSort lexLe).map (fun k =>
    { ym := k, month := monthLabel k.1 k.2,
      count := matched.countP (fun b => decide (bookingKey b = k)),
      revenue := ((matched.filter (fun b => decide (bookingKey b = k))).map
        Booking.price).sum })

/-- The ids of the services owned by the given provider email
(`Service.find({ providerEmail }).select("_id")`). -/
def providerIds (services : List Service) (email : String) : List String :=
  (services.filter (fun s => decide (s.providerEmail = lowerStr email))).map
    Service.id

/-- The bookings the `$match` stage keeps: those referencing one of the
provider's service ids. -/
def matchedBookings (services : List Service) (bookings : List Booking)
    (email : String) : List Booking :=
  bookings.filter (fun b => (providerIds services email).contains b.serviceId)

/-- The `GET /provider/analytics` handler (src/unnamed/part_004 lines
824-855): a missing email is a 400 (`none` here); a provider without
services short-circuits to an empty series; otherwise the pipeline above
runs over the provider's service ids. -/
def providerAnalytics (services : List Service) (bookings : List Booking)
    (email : String) : Option (List RollupEntry) :=
  if email = "" then none
  else
    let ids := providerIds services email
    if ids.isEmpty then some [] else some (rollupSeries bookings ids)

-- ---------------- Service update ----------------

/-- The request body of `PATCH /services/:id`.  Fields beyond the five
updatable ones model "extra keys" the client may send. -/
structure UpdateBody where
  name : Option String
  category : Option String
  price : Option ℚ
  description : Option String
  image : Option String
  providerName : Option String
  providerEmail : Option String
  ratingAvg : Option ℚ
  views : Option Nat
  reviews : Option (List Review)
deriving Repr

/-- The whitelist copy of the PATCH handler: only
name/category/price/description/image are taken from the body when
present; every other document field is untouched. -/
def applyUpdates (doc : Service) (body : UpdateBody) : Service :=
  { doc with
    name := body.name.getD doc.name,
    category := body.category.getD doc.category,
    price := body.price.getD doc.price,
    description := body.description.getD doc.description,
    image := body.image.getD doc.image }

/-- The `PATCH /services/:id` handler (src/unnamed/part_004 lines 897-920):
look the document up (404), check ownership against the token under
verification (403), copy only the whitelisted keys
name/category/price/description/image out of the body, regenerate the slug
when a truthy name was supplied, validate, and persist. -/
def patchService (vt : Bool) (tokenEmailRaw queryProviderEmail : String)
    (services : List Service) (sid : String) (body : UpdateBody) :
    Res × List Service :=
  match services.find? (fun s => decide (s.id = sid)) with
  | none => (.notFound, services)
  | some doc =>
    let requester :=
      if vt then lowerStr tokenEmailRaw
      else lowerStr (if queryProviderEmail ≠ "" then queryProviderEmail
                     else (body.providerEmail.getD ""))
    if vt ∧ requester ≠ doc.providerEmail then (.forbidden, services)
    else
      let doc1 := applyUpdates doc body
      if doc1.price < 0 then (.invalidInput, services)
      else
        match body.name with
        | some n =>
          if n = "" then (.ok, replaceFirst services sid doc1)
          else
            match uniqueSlugForUpdate services n sid with
            | none => (.serverError "allocation", services)
            | some sl => (.ok, replaceFirst services sid { doc1 with slug := sl })
        | none => (.ok, replaceFirst services sid doc1)

-- ---------------- Helper definitions for the statements ----------------

/-- Number of reviews carried by a review list for one reviewer email. -/
def countE (e : String) (revs : List Review) : Nat :=
  revs.countP (fun r => decide (r.userEmail = e))

/-- The character set `[a-z0-9_-]` that `slugify` actually produces (the
JS `\w` class keeps underscores). -/
def slugOutChar (c : Char) : Prop :=
  (97 ≤ c.toNat ∧ c.toNat ≤ 122) ∨ (48 ≤ c.toNat ∧ c.toNat ≤ 57) ∨
    c.toNat = 45 ∨ c.toNat = 95

/-- A concrete service document used by the sample instantiations. -/
def svcDemo : Service :=
  { id := "s1", name := "Deep Cleaning", slug := "deep-cleaning",
    category := "Cleaning", price := 3000, description := "Full home cleaning",
    image := "img", providerName := "CleanPros", providerEmail := "p@x.com",
    ratingAvg := 0, reviews := [], views := 7 }

/-- A second concrete service of another provider. -/
def svcDemo2 : Service :=
  { id := "s2", name := "Plumbing Fix", slug := "plumbing-fix",
    category := "Plumbing", price := 800, description := "Leak fix",
    image := "img2", providerName := "PipeMasters", providerEmail := "q@x.com",
    ratingAvg := 0, reviews := [], views := 0 }

/-- A service occupying the slug "x", used to exercise the commit-time
duplicate rejection. -/
def svcSlugX : Service :=
  { id := "id1", name := "x", slug := "x", category := "c", price := 1,
    description := "d", image := "i", providerName := "P",
    providerEmail := "p@x.com", ratingAvg := 0, reviews := [], views := 0 }

/-- A concrete booking of `svcDemo` by customer `c@x.com`. -/
def bookingDemo : Booking :=
  { id := "b1", userEmail := "c@x.com", serviceId := "s1",
    bookingDate := { y := 2024, m := 3, d := 10 }, price := 3000 }

/-- A concrete booking owned by `alice@x.com`. -/
def bkAlice : Booking :=
  { id := "b1", userEmail := "alice@x.com", serviceId := "s1",
    bookingDate := { y := 2024, m := 3, d := 1 }, price := 5 }

/-- Analytics fixture: service S1 of provider `prov@x.com`. -/
def svcSm1 : Service :=
  { id := "sm1", name := "S1", slug := "s1-slug", category := "c", price := 100,
    description := "d", image := "i", providerName := "P",
    providerEmail := "prov@x.com", ratingAvg := 0, reviews := [], views := 0 }

/-- Analytics fixture: service S2 of the same provider. -/
def svcSm2 : Service :=
  { id := "sm2", name := "S2", slug := "s2-slug", category := "c", price := 200,
    description := "d", image := "i", providerName := "P",
    providerEmail := "prov@x.com", ratingAvg := 0, reviews := [], views := 0 }

/-- Analytics fixture bookings: S1 booked twice in March 2024 and once in
April 2024, S2 booked once in March 2024. -/
def bkSample : List Booking :=
  [{ id := "k1", userEmail := "a@x.com", serviceId := "sm1",
     bookingDate := { y := 2024, m := 3, d := 5 }, price := 100 },
   { id := "k2", userEmail := "b@x.com", serviceId := "sm1",
     bookingDate := { y := 2024, m := 3, d := 9 }, price := 100 },
   { id := "k3", userEmail := "a@x.com", serviceId := "sm2",
     bookingDate := { y := 2024, m := 3, d := 7 }, price := 200 },
   { id := "k4", userEmail := "a@x.com", serviceId := "sm1",
     bookingDate := { y := 2024, m := 4, d := 2 }, price := 100 }]

/-- A review used as an "extra key" payload in `bodyDemo`. -/
def revDemoBad : Review :=
  { userEmail := "e@x.com", rating := 1, comment := "bad", date := 0 }

/-- A PATCH body that updates name and price and also carries extra keys
(providerEmail, providerName, ratingAvg, views, reviews) that the handler
must ignore. -/
def bodyDemo : UpdateBody :=
  { name := some "Deep Cleaning Pro", category := none, price := some 3500,
    description := none, image := none, providerName := some "Evil",
    providerEmail := some "evil@x.com", ratingAvg := some 99,
    views := some 12345,
    reviews := some [revDemoBad] }

-- ================= Theorems =================

-- ---------------- Slug derivation (C4) ----------------

theorem ofNat_upper_shift :
    ∀ n < 91, 65 ≤ n →
      97 ≤ (Char.ofNat (n + 32)).toNat ∧ (Char.ofNat (n + 32)).toNat ≤ 122 := by
  decide

theorem toLowerJS_not_upper (a : Char) :
    ¬(65 ≤ (toLowerJS a).toNat ∧ (toLowerJS a).toNat ≤ 90) := by
  unfold toLowerJS
  by_cases h : 65 ≤ a.toNat ∧ a.toNat ≤ 90
  · rw [if_pos h]
    have := ofNat_upper_shift a.toNat (by omega) h.1
    omega
  · rw [if_neg h]
    omega

theorem mem_collapseRuns {c : Char} :
    ∀ (b : Bool) (l : List Char),
      c ∈ collapseRuns b l → c = '-' ∨ (c ∈ l ∧ isSpaceJS c = false) := by
  intro b l
  induction l generalizing b with
  | nil => simp [collapseRuns]
  | cons d rest ih =>
    intro h
    by_cases hd : isSpaceJS d = true
    · cases b with
      | false =>
        simp only [collapseRuns, hd, if_true, if_false, Bool.false_eq_true,
          List.mem_cons] at h
        rcases h with h | h
        · exact Or.inl h
        · rcases ih true h with h' | ⟨h1, h2⟩
          · exact Or.inl h'
          · exact Or.inr ⟨List.mem_cons_of_mem _ h1, h2⟩
      | true =>
        simp only [collapseRuns, hd, if_true] at h
        rcases ih true h with h' | ⟨h1, h2⟩
        · exact Or.inl h'
        · exact Or.inr ⟨List.mem_cons_of_mem _ h1, h2⟩
    · simp only [collapseRuns, hd, if_false, Bool.false_eq_true, List.mem_cons] at h
      rcases h with rfl | h
      · exact Or.inr ⟨List.mem_cons_self _ _, by simpa using hd⟩
      · rcases ih false h with h' | ⟨h1, h2⟩
        · exact Or.inl h'
        · exact Or.inr ⟨List.mem_cons_of_mem _ h1, h2⟩

theorem trimJS_subset (l : List Char) : trimJS l ⊆ l := by
  intro c hc
  unfold trimJS at hc
  rw [List.mem_reverse] at hc
  have h1 := List.dropWhile_subset (l := (l.dropWhile isSpaceJS).reverse) isSpaceJS hc
  rw [List.mem_reverse] at h1
  exact List.dropWhile_subset isSpaceJS h1

/-- C4 (amended): `slugify` is deterministic, bounded by 60 characters,
and its output is drawn from `[a-z0-9_-]` — the underscore is kept because
the JS character class `\w` contains it. -/
theorem slugify_charset_bounds (s : String) :
    slugify s = slugify s ∧ (slugify s).length ≤ 60 ∧
      ∀ c ∈ (slugify s).data, slugOutChar c := by
  refine ⟨rfl, ?_, ?_⟩
  · show (slugChars s.data).length ≤ 60
    unfold slugChars
    rw [List.length_take]
    omega
  · intro c hc
    have hc' : c ∈ slugChars s.data := hc
    unfold slugChars at hc'
    have hc2 := List.take_subset _ _ hc'
    rcases mem_collapseRuns false _ hc2 with rfl | ⟨hmem, hns⟩
    · exact Or.inr (Or.inr (Or.inl (by decide)))
    · rw [List.mem_filter] at hmem
      obtain ⟨htrim, hkeep⟩ := hmem
      have hlow : c ∈ s.data.map toLowerJS := trimJS_subset _ htrim
      rw [List.mem_map] at hlow
      obtain ⟨a, _, rfl⟩ := hlow
      have hup := toLowerJS_not_upper a
      simp only [Bool.or_eq_true, beq_iff_eq] at hkeep
      rcases hkeep with (hw | hsp) | hdash
      · unfold isWordCharJS at hw
        rw [decide_eq_true_eq] at hw
        unfold slugOutChar
        omega
      · rw [hsp] at hns
        exact absurd hns (by simp)
      · rw [hdash]
        exact Or.inr (Or.inr (Or.inl (by decide)))

/-- C4 sample instantiation. -/
theorem slugify_charset_bounds_sample :
    slugify "My Service" = slugify "My Service" ∧
      (slugify "My Service").length ≤ 60 ∧
      ∀ c ∈ (slugify "My Service").data, slugOutChar c :=
  slugify_charset_bounds "My Service"

/-- C4 counterexample to the claim as stated: `slugify "a_b"` keeps the
underscore, a character outside the claimed alphabet `[a-z0-9-]`. -/
theorem slugify_underscore_counterexample :
    slugify "a_b" = "a_b" ∧
      ¬(∀ c ∈ (slugify "a_b").data,
          (97 ≤ c.toNat ∧ c.toNat ≤ 122) ∨ (48 ≤ c.toNat ∧ c.toNat ≤ 57) ∨
            c.toNat = 45) := by
  decide

-- ---------------- Review eligibility (C8) ----------------

/-- C8: a review submission by a reviewer without any booking of the
service is rejected as Forbidden (the eligibility gate runs before the
service lookup, so the answer is never NotFound), and the service store —
hence the review set and `ratingAvg` of every service — is unchanged. -/
theorem review_requires_booking (services : List Service) (bookings : List Booking)
    (sid emailRaw : String) (rating : ℚ) (comment : String) (now : Nat)
    (hr : rating ≠ 0)
    (hnb : ∀ b ∈ bookings, ¬(b.userEmail = lowerStr emailRaw ∧ b.serviceId = sid)) :
    submitReview services bookings sid emailRaw rating comment now =
      (.forbidden, services) ∧ Res.forbidden ≠ Res.notFound := by
  constructor
  · have hany : bookings.any
        (fun b => decide (b.userEmail = lowerStr emailRaw ∧ b.serviceId = sid)) = false := by
      rw [Bool.eq_false_iff]
      intro hcon
      rw [List.any_eq_true] at hcon
      obtain ⟨b, hb, hdec⟩ := hcon
      exact hnb b hb (of_decide_eq_true hdec)
    unfold submitReview
    rw [if_neg hr]
    simp only [hany, Bool.false_eq_true, if_false]
  · intro h
    cases h

/-- C8 sample instantiation. -/
theorem review_requires_booking_sample :
    submitReview [svcDemo] [] "s1" "c@x.com" 4 "great" 11 =
      (.forbidden, [svcDemo]) ∧ Res.forbidden ≠ Res.notFound :=
  review_requires_booking [svcDemo] [] "s1" "c@x.com" 4 "great" 11
    (by norm_num) (by simp)

-- ---------------- Booking deletion (C6) ----------------

/-- C6 counterexample to the claim as stated: a delete request that
supplies no requester email (the empty string, which is not the owner
`alice@x.com`) bypasses the ownership guard and deletes the booking, so
there IS a requester value for which a non-owner request deletes. -/
theorem delete_booking_counterexample :
    deleteBooking [bkAlice] "b1" "" = (.ok, []) ∧
      bkAlice.userEmail = "alice@x.com" ∧ ("" : String) ≠ "alice@x.com" := by
  decide

/-- C6 (amended): a non-empty requester email that does not match the
booking owner is Forbidden and leaves the store unchanged; a matching
requester deletes; but an empty/absent requester email skips the ownership
guard entirely and also deletes. -/
theorem delete_booking_owner_check (bookings : List Booking) (bid userEmail : String)
    (b : Booking)
    (hfind : bookings.find? (fun x => decide (x.id = bid)) = some b) :
    (userEmail ≠ "" → b.userEmail ≠ lowerStr userEmail →
      deleteBooking bookings bid userEmail = (.forbidden, bookings)) ∧
    (b.userEmail = lowerStr userEmail →
      deleteBooking bookings bid userEmail =
        (.ok, bookings.eraseP (fun x => decide (x.id = bid)))) ∧
    (userEmail = "" →
      deleteBooking bookings bid userEmail =
        (.ok, bookings.eraseP (fun x => decide (x.id = bid)))) := by
  refine ⟨?_, ?_, ?_⟩
  · intro h1 h2
    simp [deleteBooking, hfind, h1, h2]
  · intro h
    simp [deleteBooking, hfind, h]
  · intro h
    simp [deleteBooking, hfind, h]

/-- C6 sample instantiation. -/
theorem delete_booking_owner_check_sample :
    (("bob@x.com" : String) ≠ "" → bookingDemo.userEmail ≠ lowerStr "bob@x.com" →
      deleteBooking [bookingDemo] "b1" "bob@x.com" = (.forbidden, [bookingDemo])) ∧
    (bookingDemo.userEmail = lowerStr "bob@x.com" →
      deleteBooking [bookingDemo] "b1" "bob@x.com" =
        (.ok, [bookingDemo].eraseP (fun x => decide (x.id = "b1")))) ∧
    (("bob@x.com" : String) = "" →
      deleteBooking [bookingDemo] "b1" "bob@x.com" =
        (.ok, [bookingDemo].eraseP (fun x => decide (x.id = "b1")))) :=
  delete_booking_owner_check [bookingDemo] "b1" "bob@x.com" bookingDemo (by decide)

-- ---------------- Booking precondition order (C3) ----------------

/-- C3 counterexample to the claim as stated: a request that both omits
the booking date and references a service absent from the (empty) store is
answered InvalidInput, not NotFound — the required-fields check runs
first. -/
theorem booking_order_counterexample :
    createBookingR [] [] "u@x.com" "s1" none (some 5) "b1" = (.invalidInput, []) ∧
      Res.invalidInput ≠ Res.notFound ∧
      ([] : List Service).find? (fun s => decide (s.id = "s1")) = none := by
  refine ⟨by decide, ?_, rfl⟩
  intro h
  cases h

/-- C3 (amended): the createBooking preconditions are checked in the order
required fields (InvalidInput), then service existence (NotFound), then
the self-booking rule (Forbidden); in particular a request that omits a
required field yields InvalidInput regardless of the store. -/
theorem booking_precheck_order (services : List Service) (bookings : List Booking)
    (userEmail sid : String) (bdate : Option DateYMD) (price : Option ℚ)
    (newId : String) :
    ((userEmail = "" ∨ sid = "" ∨ bdate = none ∨ price = none) →
      createBookingR services bookings userEmail sid bdate price newId =
        (.invalidInput, bookings)) ∧
    (userEmail ≠ "" → sid ≠ "" → bdate ≠ none → price ≠ none →
      services.find? (fun s => decide (s.id = sid)) = none →
      createBookingR services bookings userEmail sid bdate price newId =
        (.notFound, bookings)) ∧
    (∀ svc, userEmail ≠ "" → sid ≠ "" → bdate ≠ none → price ≠ none →
      services.find? (fun s => decide (s.id = sid)) = some svc →
      lowerStr svc.providerEmail = lowerStr userEmail →
      createBookingR services bookings userEmail sid bdate price newId =
        (.forbidden, bookings)) := by
  refine ⟨?_, ?_, ?_⟩
  · intro h
    simp only [createBookingR]
    rw [if_pos h]
  · intro h1 h2 h3 h4 hfind
    simp only [createBookingR]
    rw [if_neg (by tauto), hfind]
  · intro svc h1 h2 h3 h4 hfind hself
    simp only [createBookingR]
    rw [if_neg (by tauto), hfind]
    simp [hself]

/-- C3 sample instantiation of the amended ordering. -/
theorem booking_precheck_order_sample :
    createBookingR [] [] "" "s1" none none "b1" = (.invalidInput, []) ∧
    createBookingR [] [] "c@x.com" "s1" (some { y := 2024, m := 3, d := 1 })
      (some 5) "b1" = (.notFound, []) ∧
    createBookingR [svcDemo] [] "P@x.com" "s1" (some { y := 2024, m := 3, d := 1 })
      (some 5) "b1" = (.forbidden, []) :=
  ⟨(booking_precheck_order [] [] "" "s1" none none "b1").1 (Or.inl rfl),
   (booking_precheck_order [] [] "c@x.com" "s1" (some { y := 2024, m := 3, d := 1 })
      (some 5) "b1").2.1 (by decide) (by decide) (by decide) (by decide) rfl,
   (booking_precheck_order [svcDemo] [] "P@x.com" "s1"
      (some { y := 2024, m := 3, d := 1 }) (some 5) "b1").2.2 svcDemo
      (by decide) (by decide) (by decide) (by decide) (by decide) (by decide)⟩

-- ---------------- Favorite idempotence (C9) ----------------

/-- C9: creating the same favorite twice succeeds both times, leaves
exactly one record for the pair, and preserves the at-most-one-per-pair
invariant of the unique compound index after each operation. -/
theorem favorite_idempotent (favs : List Favorite) (vt : Bool)
    (tokenEmailRaw bodyEmail sid newId1 newId2 : String)
    (hinv : UniqueFavs favs) (hsid : sid ≠ "") :
    ∃ favs1 favs2,
      favUpsert favs vt tokenEmailRaw bodyEmail sid newId1 = (.created, favs1) ∧
      favUpsert favs1 vt tokenEmailRaw bodyEmail sid newId2 = (.created, favs2) ∧
      pairCount favs2 (if vt then lowerStr tokenEmailRaw else lowerStr bodyEmail)
        sid = 1 ∧
      UniqueFavs favs1 ∧ UniqueFavs favs2 := by
  set e := if vt then lowerStr tokenEmailRaw else lowerStr bodyEmail with he
  by_cases hany :
      favs.any (fun f => decide (f.userEmail = e ∧ f.serviceId = sid)) = true
  · refine ⟨favs, favs, ?_, ?_, ?_, hinv, hinv⟩
    · simp only [favUpsert, ← he]
      rw [if_neg hsid, if_pos hany]
    · simp only [favUpsert, ← he]
      rw [if_neg hsid, if_pos hany]
    · have hpos : 0 < pairCount favs e sid := by
        rw [List.any_eq_true] at hany
        obtain ⟨f, hf, hdec⟩ := hany
        exact List.countP_pos_iff.mpr ⟨f, hf, hdec⟩
      have := hinv e sid
      omega
  · have hzero : pairCount favs e sid = 0 := by
      unfold pairCount
      rw [List.countP_eq_zero]
      intro f hf hdec
      exact hany (List.any_eq_true.mpr ⟨f, hf, hdec⟩)
    set nf : Favorite := { id := newId1, userEmail := e, serviceId := sid } with hnf
    have hcnt1 : ∀ e' sid', pairCount (favs ++ [nf]) e' sid' =
        pairCount favs e' sid' + (if e = e' ∧ sid = sid' then 1 else 0) := by
      intro e' sid'
      unfold pairCount
      rw [List.countP_append]
      congr 1
      rw [List.countP_cons, List.countP_nil]
      by_cases hmatch : e = e' ∧ sid = sid'
      · obtain ⟨rfl, rfl⟩ := hmatch
        simp [hnf]
      · rw [if_neg hmatch, if_neg]
        simp only [hnf, decide_eq_true_eq]
        exact hmatch
    have hinv1 : UniqueFavs (favs ++ [nf]) := by
      intro e' sid'
      rw [hcnt1]
      by_cases hmatch : e = e' ∧ sid = sid'
      · obtain ⟨rfl, rfl⟩ := hmatch
        simp [hzero]
      · have := hinv e' sid'
        rw [if_neg hmatch]
        omega
    have hany1 : (favs ++ [nf]).any
        (fun f => decide (f.userEmail = e ∧ f.serviceId = sid)) = true := by
      rw [List.any_eq_true]
      refine ⟨nf, by simp, ?_⟩
      simp only [hnf, decide_eq_true_eq]
      trivial
    have hanyF : favs.any
        (fun f => decide (f.userEmail = e ∧ f.serviceId = sid)) = false := by
      rw [Bool.eq_false_iff]
      exact hany
    refine ⟨favs ++ [nf], favs ++ [nf], ?_, ?_, ?_, hinv1, hinv1⟩
    · simp only [favUpsert, ← he]
      rw [if_neg hsid]
      simp only [hanyF, Bool.false_eq_true, if_false, hnf]
    · simp only [favUpsert, ← he]
      rw [if_neg hsid, if_pos hany1]
    · rw [hcnt1, hzero]
      simp

/-- C9 sample instantiation. -/
theorem favorite_idempotent_sample :
    ∃ favs1 favs2,
      favUpsert [] false "" "C@x.com" "s1" "f1" = (.created, favs1) ∧
      favUpsert favs1 false "" "C@x.com" "s1" "f2" = (.created, favs2) ∧
      pairCount favs2 (if false then lowerStr "" else lowerStr "C@x.com") "s1" = 1 ∧
      UniqueFavs favs1 ∧ UniqueFavs favs2 :=
  favorite_idempotent [] false "" "C@x.com" "s1" "f1" "f2"
    (by intro e sid; simp [pairCount]) (by decide)

-- ---------------- Slug allocation (C5) ----------------

theorem digitChar_inj_lt :
    ∀ d1 < 10, ∀ d2 < 10, digitChar d1 = digitChar d2 → d1 = d2 := by
  decide

theorem map_digitChar_inj {l1 : List Nat} :
    ∀ {l2 : List Nat}, (∀ d ∈ l1, d < 10) → (∀ d ∈ l2, d < 10) →
      l1.map digitChar = l2.map digitChar → l1 = l2 := by
  induction l1 with
  | nil =>
    intro l2 _ _ h
    cases l2 with
    | nil => rfl
    | cons d rest => simp at h
  | cons d rest ih =>
    intro l2 h1 h2 h
    cases l2 with
    | nil => simp at h
    | cons d' rest' =>
      simp only [List.map_cons, List.cons.injEq] at h
      have hd := digitChar_inj_lt d (h1 d (by simp)) d' (h2 d' (by simp)) h.1
      subst hd
      rw [ih (fun x hx => h1 x (by simp [hx])) (fun x hx => h2 x (by simp [hx])) h.2]

theorem natChars_inj {m n : Nat} (h : natChars m = natChars n) : m = n := by
  unfold natChars at h
  by_cases hm : m = 0 <;> by_cases hn : n = 0
  · omega
  · exfalso
    rw [if_pos hm, if_neg hn] at h
    have h' : (Nat.digits 10 n).map digitChar = List.map digitChar [0] := by
      have := congrArg List.reverse h
      simpa using this.symm
    have hdig : Nat.digits 10 n = [0] :=
      map_digitChar_inj (fun d hd => Nat.digits_lt_base (by norm_num) hd)
        (by simp) h'
    have := Nat.ofDigits_digits 10 n
    rw [hdig] at this
    simp [Nat.ofDigits] at this
    exact hn this.symm
  · exfalso
    rw [if_neg hm, if_pos hn] at h
    have h' : (Nat.digits 10 m).map digitChar = List.map digitChar [0] := by
      have := congrArg List.reverse h
      simpa using this
    have hdig : Nat.digits 10 m = [0] :=
      map_digitChar_inj (fun d hd => Nat.digits_lt_base (by norm_num) hd)
        (by simp) h'
    have := Nat.ofDigits_digits 10 m
    rw [hdig] at this
    simp [Nat.ofDigits] at this
    exact hm this.symm
  · rw [if_neg hm, if_neg hn] at h
    have h' : (Nat.digits 10 m).map digitChar = (Nat.digits 10 n).map digitChar := by
      have := congrArg List.reverse h
      simpa using this
    have hdig := map_digitChar_inj
      (fun d hd => Nat.digits_lt_base (by norm_num) hd)
      (fun d hd => Nat.digits_lt_base (by norm_num) hd) h'
    have hm' := Nat.ofDigits_digits 10 m
    have hn' := Nat.ofDigits_digits 10 n
    rw [hdig] at hm'
    exact hm'.symm.trans hn'

theorem candidate_inj (base : List Char) : Function.Injective (candidate base) := by
  intro j k h
  match j, k with
  | 0, 0 => rfl
  | 0, k + 1 =>
    exfalso
    unfold candidate at h
    rw [String.ext_iff] at h
    have := congrArg List.length h
    simp at this
  | j + 1, 0 =>
    exfalso
    unfold candidate at h
    rw [String.ext_iff] at h
    have := congrArg List.length h
    simp at this
  | j + 1, k + 1 =>
    unfold candidate at h
    rw [String.ext_iff] at h
    have h1 := List.append_cancel_left h
    simp only [List.cons.injEq] at h1
    have := natChars_inj h1.2
    omega

theorem exists_free_candidate (occupied : List String) (base : List Char) :
    ∃ j < occupied.length + 1, candidate base j ∉ occupied := by
  by_contra hcon
  push_neg at hcon
  have hmaps : ∀ a ∈ Finset.range (occupied.length + 1),
      candidate base a ∈ occupied.toFinset := by
    intro a ha
    rw [List.mem_toFinset]
    exact hcon a (Finset.mem_range.mp ha)
  have hcard := Finset.card_le_card_of_injOn (candidate base) hmaps
    ((candidate_inj base).injOn)
  rw [Finset.card_range] at hcard
  have := occupied.toFinset_card_le
  omega

theorem probe_finds (occupied : List String) (base : List Char) :
    ∀ (fuel k : Nat), (∃ j < fuel, candidate base (k + j) ∉ occupied) →
      ∃ s, probeSlug occupied base fuel k = some s ∧ s ∉ occupied := by
  intro fuel
  induction fuel with
  | zero =>
    rintro k ⟨j, hj, _⟩
    omega
  | succ n ih =>
    rintro k ⟨j, hj, hfree⟩
    by_cases hk : candidate base k ∈ occupied
    · have hj0 : j ≠ 0 := by
        rintro rfl
        rw [Nat.add_zero] at hfree
        exact hfree hk
      obtain ⟨j', rfl⟩ : ∃ j', j = j' + 1 := ⟨j - 1, by omega⟩
      have hnext : ∃ j < n, candidate base (k + 1 + j) ∉ occupied := by
        refine ⟨j', by omega, ?_⟩
        have : k + 1 + j' = k + (j' + 1) := by omega
        rw [this]
        exact hfree
      have := ih (k + 1) hnext
      simpa [probeSlug, hk] using this
    · exact ⟨candidate base k, by simp [probeSlug, hk], hk⟩

/-- The probe loop, run with fuel `|occupied| + 1`, always finds a slug
that is unoccupied: the candidates are pairwise distinct, so among the
first `|occupied| + 1` of them one is free. -/
theorem probe_terminates (occupied : List String) (base : List Char) :
    ∃ s, probeSlug occupied base (occupied.length + 1) 0 = some s ∧
      s ∉ occupied := by
  apply probe_finds
  obtain ⟨j, hj, hfree⟩ := exists_free_candidate occupied base
  exact ⟨j, hj, by simpa using hfree⟩

/-- C5 counterexample to the claim as stated: with an empty collection at
probe time and the slug `x` committed by a concurrent writer, the create
handler surfaces the store's duplicate-key rejection as a generic 500
server error — it does not retry with `x-2` (no document is inserted) and
no bounded retry budget or fatal allocation error exists. -/
theorem slug_commit_reject_counterexample :
    createService [] [svcSlugX] "x" "c" "d" "i" "P" "p@x.com" (some 1) false ""
      "id2" = (.serverError "duplicate key", [svcSlugX]) ∧
    (∀ m, Res.serverError m ≠ Res.conflict) ∧
    (∀ (m : String) (st : List Service), (Res.serverError m, st) ≠ (Res.created, st)) := by
  refine ⟨by decide, ?_, ?_⟩
  · intro m h
    cases h
  · intro m st h
    cases h

/-- C5 (amended): the probe loop retries with the next numeric suffix only
while the probe itself sees the candidate occupied; it carries no retry
budget and no fatal allocation error — against any finite store it returns,
within `|store| + 1` probes, a slug unoccupied at probe time.  A duplicate
insert rejected by the unique index at commit time is surfaced to the
caller as a generic 500 failure, without any retry. -/
theorem slug_alloc_behavior (probeStore commitStore : List Service)
    (name category description image providerName providerEmailBody : String)
    (p : ℚ) (vt : Bool) (tokenEmailRaw newId : String)
    (hname : name ≠ "") (hcat : category ≠ "") (hdesc : description ≠ "")
    (himg : image ≠ "") (hp : 0 ≤ p) :
    ∃ s, uniqueSlugForNew probeStore name = some s ∧
      s ∉ probeStore.map Service.slug ∧
      (s ∈ commitStore.map Service.slug →
        createService probeStore commitStore name category description image
          providerName providerEmailBody (some p) vt tokenEmailRaw newId =
          (.serverError "duplicate key", commitStore)) := by
  obtain ⟨s, hs, hfree⟩ := probe_terminates (probeStore.map Service.slug)
    (slugChars name.data)
  have hs' : uniqueSlugForNew probeStore name = some s := by
    unfold uniqueSlugForNew
    simpa using hs
  refine ⟨s, hs', hfree, ?_⟩
  intro hdup
  unfold createService
  rw [if_neg (by simp [hname, hcat, hdesc, himg]), hs']
  dsimp only [Option.getD]
  rw [if_neg (not_lt.mpr hp), if_pos hdup]

/-- C5 sample instantiation. -/
theorem slug_alloc_behavior_sample :
    ∃ s, uniqueSlugForNew [] "x" = some s ∧
      s ∉ ([] : List Service).map Service.slug ∧
      (s ∈ [svcSlugX].map Service.slug →
        createService [] [svcSlugX] "x" "c" "d" "i" "P" "p@x.com" (some 1)
          false "" "id2" = (.serverError "duplicate key", [svcSlugX])) :=
  slug_alloc_behavior [] [svcSlugX] "x" "c" "d" "i" "P" "p@x.com" 1 false ""
    "id2" (by decide) (by decide) (by decide) (by decide) (by norm_num)

-- ---------------- Booking uniqueness (C2) ----------------

/-- C2: with the referenced service present and the self-booking guard
passing, a first booking of a fresh (customer, service, date) triple is
created; repeating the identical triple hits the unique compound index,
whose rejection (error code 11000) the handler translates to a 409
Conflict — distinct from the generic 500 — and a booking of the same
(customer, service) for a different date is created. -/
theorem booking_duplicate_conflict (services : List Service)
    (bookings : List Booking) (vt : Bool) (tokenEmailRaw bodyEmail sid : String)
    (d d' : DateYMD) (p : ℚ) (id1 id2 id3 : String) (svc : Service)
    (hsid : sid ≠ "")
    (hfind : services.find? (fun s => decide (s.id = sid)) = some svc)
    (hauth : ¬(vt = true ∧ lowerStr tokenEmailRaw = ""))
    (hself : ¬(vt = true ∧ svc.providerEmail = lowerStr tokenEmailRaw))
    (hp : 0 ≤ p)
    (hfresh : ∀ b ∈ bookings, ¬(b.userEmail = bookingEmail vt tokenEmailRaw bodyEmail ∧
      b.serviceId = sid ∧ b.bookingDate = d))
    (hfresh' : ∀ b ∈ bookings, ¬(b.userEmail = bookingEmail vt tokenEmailRaw bodyEmail ∧
      b.serviceId = sid ∧ b.bookingDate = d'))
    (hd : d' ≠ d) :
    ∃ nb : Booking,
      nb = { id := id1, userEmail := bookingEmail vt tokenEmailRaw bodyEmail,
             serviceId := sid, bookingDate := d, price := p } ∧
      createBooking services bookings vt tokenEmailRaw bodyEmail sid (some d)
        (some p) id1 = (.created, bookings ++ [nb]) ∧
      createBooking services (bookings ++ [nb]) vt tokenEmailRaw bodyEmail sid
        (some d) (some p) id2 = (.conflict, bookings ++ [nb]) ∧
      (∀ m, Res.conflict ≠ Res.serverError m) ∧
      createBooking services (bookings ++ [nb]) vt tokenEmailRaw bodyEmail sid
        (some d') (some p) id3 =
        (.created, bookings ++ [nb] ++
          [{ id := id3, userEmail := bookingEmail vt tokenEmailRaw bodyEmail,
             serviceId := sid, bookingDate := d', price := p }]) := by
  set e := bookingEmail vt tokenEmailRaw bodyEmail with he
  set nb : Booking :=
    { id := id1, userEmail := e, serviceId := sid, bookingDate := d, price := p }
    with hnb
  have hfields : ¬(sid = "" ∨ (some d : Option DateYMD) = none ∨
      (some p : Option ℚ) = none) := by
    simp [hsid]
  have hfields' : ¬(sid = "" ∨ (some d' : Option DateYMD) = none ∨
      (some p : Option ℚ) = none) := by
    simp [hsid]
  have hany1 : bookings.any (fun b =>
      decide (b.userEmail = e ∧ b.serviceId = sid ∧ b.bookingDate = d)) = false := by
    rw [Bool.eq_false_iff]
    intro hcon
    rw [List.any_eq_true] at hcon
    obtain ⟨b, hb, hdec⟩ := hcon
    exact hfresh b hb (of_decide_eq_true hdec)
  have hany2 : (bookings ++ [nb]).any (fun b =>
      decide (b.userEmail = e ∧ b.serviceId = sid ∧ b.bookingDate = d)) = true := by
    rw [List.any_eq_true]
    exact ⟨nb, by simp, by simp [hnb]⟩
  have hany3 : (bookings ++ [nb]).any (fun b =>
      decide (b.userEmail = e ∧ b.serviceId = sid ∧ b.bookingDate = d')) = false := by
    rw [Bool.eq_false_iff]
    intro hcon
    rw [List.any_eq_true] at hcon
    obtain ⟨b, hb, hdec⟩ := hcon
    rw [List.mem_append] at hb
    rcases hb with hb | hb
    · exact hfresh' b hb (of_decide_eq_true hdec)
    · rw [List.mem_singleton] at hb
      subst hb
      have := of_decide_eq_true hdec
      simp only [hnb] at this
      exact hd this.2.2.symm
  refine ⟨nb, rfl, ?_, ?_, ?_, ?_⟩
  · unfold createBooking
    rw [if_neg hauth, if_neg hfields, hfind]
    dsimp only
    rw [if_neg hself, if_neg (not_lt.mpr hp), ← he, hany1]
    simp [hnb]
  · unfold createBooking
    rw [if_neg hauth, if_neg hfields, hfind]
    dsimp only
    rw [if_neg hself, if_neg (not_lt.mpr hp), ← he, hany2]
    simp
  · intro m h
    cases h
  · unfold createBooking
    rw [if_neg hauth, if_neg hfields', hfind]
    dsimp only
    rw [if_neg hself, if_neg (not_lt.mpr hp), ← he, hany3]
    simp

/-- C2 sample instantiation. -/
theorem booking_duplicate_conflict_sample :
    ∃ nb : Booking,
      nb = { id := "b1", userEmail := bookingEmail false "" "C@x.com",
             serviceId := "s1", bookingDate := { y := 2024, m := 3, d := 10 },
             price := 3000 } ∧
      createBooking [svcDemo] [] false "" "C@x.com" "s1"
        (some { y := 2024, m := 3, d := 10 }) (some 3000) "b1" =
        (.created, [] ++ [nb]) ∧
      createBooking [svcDemo] ([] ++ [nb]) false "" "C@x.com" "s1"
        (some { y := 2024, m := 3, d := 10 }) (some 3000) "b2" =
        (.conflict, [] ++ [nb]) ∧
      (∀ m, Res.conflict ≠ Res.serverError m) ∧
      createBooking [svcDemo] ([] ++ [nb]) false "" "C@x.com" "s1"
        (some { y := 2024, m := 4, d := 2 }) (some 3000) "b3" =
        (.created, [] ++ [nb] ++
          [{ id := "b3", userEmail := bookingEmail false "" "C@x.com",
             serviceId := "s1", bookingDate := { y := 2024, m := 4, d := 2 },
             price := 3000 }]) :=
  booking_duplicate_conflict [svcDemo] [] false "" "C@x.com" "s1"
    { y := 2024, m := 3, d := 10 } { y := 2024, m := 4, d := 2 } 3000
    "b1" "b2" "b3" svcDemo (by decide) (by decide) (by simp) (by decide)
    (by norm_num) (by simp) (by simp) (by decide)

-- ---------------- Analytics rollup (C7) ----------------

theorem map_ym_id (f : Nat × Nat → RollupEntry) (hf : ∀ k, (f k).ym = k)
    (l : List (Nat × Nat)) : (l.map f).map RollupEntry.ym = l := by
  rw [List.map_map]
  have hcomp : RollupEntry.ym ∘ f = fun k => k := by
    funext k
    exact hf k
  rw [hcomp, List.map_id']

theorem rollupSeries_map_ym (bookings : List Booking) (ids : List String) :
    (rollupSeries bookings ids).map RollupEntry.ym =
      List.insertionSort lexLe
        (((bookings.filter (fun b => ids.contains b.serviceId)).map
          bookingKey).dedup) := by
  unfold rollupSeries
  dsimp only
  exact map_ym_id _ (fun k => rfl) _

/-- C7: for every provider email, the analytics endpoint groups the
bookings of the provider's services by (year, month), emits per group the
booking count and the revenue sum, orders the groups chronologically
ascending, and a provider with zero services yields an empty series rather
than an error. -/
theorem provider_rollup_spec (services : List Service) (bookings : List Booking)
    (email : String) (hemail : email ≠ "") :
    ∃ series, providerAnalytics services bookings email = some series ∧
      (providerIds services email = [] → series = []) ∧
      List.Sorted lexLe (series.map RollupEntry.ym) ∧
      (series.map RollupEntry.ym).Nodup ∧
      (∀ k, k ∈ series.map RollupEntry.ym ↔
        ∃ b ∈ matchedBookings services bookings email, bookingKey b = k) ∧
      (∀ ent ∈ series,
        ent.count = (matchedBookings services bookings email).countP
          (fun b => decide (bookingKey b = ent.ym)) ∧
        ent.revenue = (((matchedBookings services bookings email).filter
          (fun b => decide (bookingKey b = ent.ym))).map Booking.price).sum ∧
        ent.month = monthLabel ent.ym.1 ent.ym.2) := by
  by_cases hids : (providerIds services email).isEmpty
  · have hnil : providerIds services email = [] := by
      rwa [List.isEmpty_iff] at hids
    have hmatched : matchedBookings services bookings email = [] := by
      unfold matchedBookings
      rw [hnil]
      simp
    refine ⟨[], ?_, fun _ => rfl, by simp, by simp, ?_, by simp⟩
    · unfold providerAnalytics
      rw [if_neg hemail]
      dsimp only
      rw [if_pos hids]
    · intro k
      simp [hmatched]
  · refine ⟨rollupSeries bookings (providerIds services email),
      ?_, ?_, ?_, ?_, ?_, ?_⟩
    · unfold providerAnalytics
      rw [if_neg hemail]
      dsimp only
      rw [if_neg hids]
    · intro h
      rw [h] at hids
      simp at hids
    · rw [rollupSeries_map_ym]
      exact List.sorted_insertionSort lexLe _
    · rw [rollupSeries_map_ym]
      exact ((List.perm_insertionSort lexLe _).nodup_iff).mpr (List.nodup_dedup _)
    · intro k
      rw [rollupSeries_map_ym, (List.perm_insertionSort lexLe _).mem_iff,
        List.mem_dedup, List.mem_map]
      exact Iff.rfl
    · intro ent hent
      unfold rollupSeries at hent
      dsimp only at hent
      rw [List.mem_map] at hent
      obtain ⟨k, _, rfl⟩ := hent
      exact ⟨rfl, rfl, rfl⟩

/-- C7 sample instantiation: the spec's worked example — provider with
services S1 (booked twice in March 2024, once in April 2024) and S2
(booked once in March 2024). -/
theorem provider_rollup_spec_sample :
    ∃ series, providerAnalytics [svcSm1, svcSm2] bkSample "prov@x.com" =
        some series ∧
      (providerIds [svcSm1, svcSm2] "prov@x.com" = [] → series = []) ∧
      List.Sorted lexLe (series.map RollupEntry.ym) ∧
      (series.map RollupEntry.ym).Nodup ∧
      (∀ k, k ∈ series.map RollupEntry.ym ↔
        ∃ b ∈ matchedBookings [svcSm1, svcSm2] bkSample "prov@x.com",
          bookingKey b = k) ∧
      (∀ ent ∈ series,
        ent.count = (matchedBookings [svcSm1, svcSm2] bkSample "prov@x.com").countP
          (fun b => decide (bookingKey b = ent.ym)) ∧
        ent.revenue = (((matchedBookings [svcSm1, svcSm2] bkSample
          "prov@x.com").filter
          (fun b => decide (bookingKey b = ent.ym))).map Booking.price).sum ∧
        ent.month = monthLabel ent.ym.1 ent.ym.2) :=
  provider_rollup_spec [svcSm1, svcSm2] bkSample "prov@x.com" (by decide)

-- ---------------- Review aggregator (C1) ----------------

theorem find?_replaceFirst (sid : String) (svc' : Service) (hid : svc'.id = sid) :
    ∀ (services : List Service) (svc : Service),
      services.find? (fun s => decide (s.id = sid)) = some svc →
      (replaceFirst services sid svc').find? (fun s => decide (s.id = sid)) =
        some svc' := by
  intro services
  induction services with
  | nil =>
    intro svc h
    simp at h
  | cons a rest ih =>
    intro svc h
    by_cases ha : a.id = sid
    · unfold replaceFirst
      rw [if_pos ha]
      rw [List.find?_cons_of_pos _ (by simp [hid])]
    · unfold replaceFirst
      rw [if_neg ha]
      rw [List.find?_cons_of_neg _ (by simp [ha])]
      rw [List.find?_cons_of_neg _ (by simp [ha])] at h
      exact ih svc h

theorem countE_upsert (e : String) (rating : ℚ) (comment : String) (now : Nat) :
    ∀ revs, countE e (upsertReview e rating comment now revs) =
      if countE e revs = 0 then 1 else countE e revs := by
  intro revs
  induction revs with
  | nil => simp [upsertReview, countE]
  | cons r rest ih =>
    by_cases hre : r.userEmail = e
    · unfold upsertReview
      rw [if_pos hre]
      unfold countE
      rw [List.countP_cons, List.countP_cons]
      simp only [hre, decide_eq_true_eq, if_pos trivial]
      rw [if_neg (by omega)]
    · unfold upsertReview
      rw [if_neg hre]
      unfold countE
      rw [List.countP_cons, List.countP_cons]
      have hdec : ¬(decide (r.userEmail = e) = true) := by
        simp [hre]
      rw [if_neg hdec]
      unfold countE at ih
      simpa using ih

theorem upsert_rating_all (e : String) (rating : ℚ) (comment : String)
    (now : Nat) :
    ∀ revs, countE e revs ≤ 1 →
      ∀ x ∈ upsertReview e rating comment now revs,
        x.userEmail = e → x.rating = rating := by
  intro revs
  induction revs with
  | nil =>
    intro _ x hx _
    simp only [upsertReview, List.mem_singleton] at hx
    subst hx
    rfl
  | cons r rest ih =>
    intro hle x hx hxe
    by_cases hre : r.userEmail = e
    · unfold upsertReview at hx
      rw [if_pos hre] at hx
      rw [List.mem_cons] at hx
      rcases hx with rfl | hx
      · rfl
      · exfalso
        have hzero : List.countP (fun y => decide (y.userEmail = e)) rest = 0 := by
          unfold countE at hle
          rw [List.countP_cons] at hle
          have hd : decide (r.userEmail = e) = true := by simp [hre]
          rw [hd] at hle
          simp at hle
          rw [List.countP_eq_zero]
          intro a ha
          simpa using hle a ha
        rw [List.countP_eq_zero] at hzero
        exact hzero x hx (by simp [hxe])
    · unfold upsertReview at hx
      rw [if_neg hre] at hx
      rw [List.mem_cons] at hx
      rcases hx with rfl | hx
      · exact absurd hxe hre
      · refine ih ?_ x hx hxe
        unfold countE at hle ⊢
        rw [List.countP_cons] at hle
        have hdec : ¬(decide (r.userEmail = e) = true) := by
          simp [hre]
        rw [if_neg hdec] at hle
        omega

theorem upsert_valid (e : String) (rating : ℚ) (comment : String) (now : Nat)
    (hr : 1 ≤ rating ∧ rating ≤ 5) :
    ∀ revs, revs.all validReview = true →
      (upsertReview e rating comment now revs).all validReview = true := by
  intro revs
  induction revs with
  | nil =>
    intro _
    simp [upsertReview, validReview, hr.1, hr.2]
  | cons r rest ih =>
    intro hall
    rw [List.all_cons, Bool.and_eq_true] at hall
    by_cases hre : r.userEmail = e
    · unfold upsertReview
      rw [if_pos hre]
      rw [List.all_cons, Bool.and_eq_true]
      exact ⟨by simp [validReview, hr.1, hr.2], hall.2⟩
    · unfold upsertReview
      rw [if_neg hre]
      rw [List.all_cons, Bool.and_eq_true]
      exact ⟨hall.1, ih hall.2⟩

theorem submitReview_success (services : List Service) (bookings : List Booking)
    (sid emailRaw : String) (rating : ℚ) (comment : String) (now : Nat)
    (svc : Service) (hrne : rating ≠ 0)
    (hany : bookings.any (fun b =>
      decide (b.userEmail = lowerStr emailRaw ∧ b.serviceId = sid)) = true)
    (hfind : services.find? (fun s => decide (s.id = sid)) = some svc)
    (hall : (upsertReview (lowerStr emailRaw) rating comment now
      svc.reviews).all validReview = true) :
    submitReview services bookings sid emailRaw rating comment now =
      (.created, replaceFirst services sid
        { svc with
          reviews := upsertReview (lowerStr emailRaw) rating comment now
            svc.reviews,
          ratingAvg := ratingAvgOf (upsertReview (lowerStr emailRaw) rating
            comment now svc.reviews) }) := by
  unfold submitReview
  rw [if_neg hrne, if_pos hany, hfind]
  dsimp only
  rw [if_pos hall]

/-- C1: a reviewer with a booking who submits twice with different ratings
ends with exactly one review for the (service, reviewer) pair, carrying the
latest rating, and after each of the two mutations the stored `ratingAvg`
equals the freshly recomputed two-decimal-rounded mean of the updated
review set (`ratingAvgOf`, which is 0 on an empty set). -/
theorem review_upsert_unique_and_avg (services : List Service)
    (bookings : List Booking) (sid emailRaw : String) (r1 r2 : ℚ)
    (c1 c2 : String) (t1 t2 : Nat) (svc : Service)
    (hbook : ∃ b ∈ bookings, b.userEmail = lowerStr emailRaw ∧ b.serviceId = sid)
    (hfind : services.find? (fun s => decide (s.id = sid)) = some svc)
    (hvalid : svc.reviews.all validReview = true)
    (hcount : countE (lowerStr emailRaw) svc.reviews ≤ 1)
    (hr1 : 1 ≤ r1 ∧ r1 ≤ 5) (hr2 : 1 ≤ r2 ∧ r2 ≤ 5) (hne : r1 ≠ r2) :
    ∃ svc1 svc2 services1 services2,
      submitReview services bookings sid emailRaw r1 c1 t1 =
        (.created, services1) ∧
      services1.find? (fun s => decide (s.id = sid)) = some svc1 ∧
      svc1.ratingAvg = ratingAvgOf svc1.reviews ∧
      submitReview services1 bookings sid emailRaw r2 c2 t2 =
        (.created, services2) ∧
      services2.find? (fun s => decide (s.id = sid)) = some svc2 ∧
      svc2.ratingAvg = ratingAvgOf svc2.reviews ∧
      countE (lowerStr emailRaw) svc2.reviews = 1 ∧
      (∀ x ∈ svc2.reviews, x.userEmail = lowerStr emailRaw → x.rating = r2) := by
  have hany : bookings.any (fun b =>
      decide (b.userEmail = lowerStr emailRaw ∧ b.serviceId = sid)) = true := by
    rw [List.any_eq_true]
    obtain ⟨b, hb, h1, h2⟩ := hbook
    exact ⟨b, hb, by simp [h1, h2]⟩
  have hr1ne : r1 ≠ 0 := by
    rintro rfl
    linarith [hr1.1]
  have hr2ne : r2 ≠ 0 := by
    rintro rfl
    linarith [hr2.1]
  have hsvcid : svc.id = sid := by
    have hp := List.find?_some hfind
    simpa using hp
  have hall1 := upsert_valid (lowerStr emailRaw) r1 c1 t1 hr1 svc.reviews hvalid
  have hstep1 := submitReview_success services bookings sid emailRaw r1 c1 t1
    svc hr1ne hany hfind hall1
  set revs1 := upsertReview (lowerStr emailRaw) r1 c1 t1 svc.reviews with hrevs1
  set svc1 : Service :=
    { svc with reviews := revs1, ratingAvg := ratingAvgOf revs1 } with hsvc1
  have hfind1 : (replaceFirst services sid svc1).find?
      (fun s => decide (s.id = sid)) = some svc1 :=
    find?_replaceFirst sid svc1 hsvcid services svc hfind
  have hc1 : countE (lowerStr emailRaw) revs1 = 1 := by
    rw [hrevs1, countE_upsert]
    by_cases hz : countE (lowerStr emailRaw) svc.reviews = 0
    · rw [if_pos hz]
    · rw [if_neg hz]
      omega
  have hall1' : svc1.reviews.all validReview = true := hall1
  have hall2 := upsert_valid (lowerStr emailRaw) r2 c2 t2 hr2 svc1.reviews hall1'
  have hstep2 := submitReview_success (replaceFirst services sid svc1) bookings
    sid emailRaw r2 c2 t2 svc1 hr2ne hany hfind1 hall2
  set revs2 := upsertReview (lowerStr emailRaw) r2 c2 t2 svc1.reviews with hrevs2
  set svc2 : Service :=
    { svc1 with reviews := revs2, ratingAvg := ratingAvgOf revs2 } with hsvc2
  have hsvc1id : svc1.id = sid := hsvcid
  have hfind2 : (replaceFirst (replaceFirst services sid svc1) sid svc2).find?
      (fun s => decide (s.id = sid)) = some svc2 :=
    find?_replaceFirst sid svc2 hsvc1id (replaceFirst services sid svc1) svc1
      hfind1
  have hc1' : countE (lowerStr emailRaw) svc1.reviews = 1 := hc1
  have hc2 : countE (lowerStr emailRaw) revs2 = 1 := by
    rw [hrevs2, countE_upsert, hc1']
    simp
  have hrate2 : ∀ x ∈ revs2, x.userEmail = lowerStr emailRaw → x.rating = r2 := by
    rw [hrevs2]
    exact upsert_rating_all (lowerStr emailRaw) r2 c2 t2 svc1.reviews
      (by rw [hc1'])
  exact ⟨svc1, svc2, replaceFirst services sid svc1,
    replaceFirst (replaceFirst services sid svc1) sid svc2,
    hstep1, hfind1, rfl, hstep2, hfind2, rfl, hc2, hrate2⟩

/-- C1 sample instantiation: ratings 4 then 5 from the booked customer. -/
theorem review_upsert_unique_and_avg_sample :
    ∃ svc1 svc2 services1 services2,
      submitReview [svcDemo] [bookingDemo] "s1" "c@x.com" 4 "ok" 1 =
        (.created, services1) ∧
      services1.find? (fun s => decide (s.id = "s1")) = some svc1 ∧
      svc1.ratingAvg = ratingAvgOf svc1.reviews ∧
      submitReview services1 [bookingDemo] "s1" "c@x.com" 5 "best" 2 =
        (.created, services2) ∧
      services2.find? (fun s => decide (s.id = "s1")) = some svc2 ∧
      svc2.ratingAvg = ratingAvgOf svc2.reviews ∧
      countE (lowerStr "c@x.com") svc2.reviews = 1 ∧
      (∀ x ∈ svc2.reviews, x.userEmail = lowerStr "c@x.com" → x.rating = 5) :=
  review_upsert_unique_and_avg [svcDemo] [bookingDemo] "s1" "c@x.com" 4 5
    "ok" "best" 1 2 svcDemo ⟨bookingDemo, by simp, by decide⟩ (by decide)
    (by decide) (by decide) (by norm_num) (by norm_num) (by norm_num)

-- ---------------- Service update frame (C10) ----------------

theorem uniqueSlugForUpdate_free (store : List Service) (name id : String) :
    ∃ s, uniqueSlugForUpdate store name id = some s ∧
      s ∉ (store.filter (fun x => decide (x.id ≠ id))).map Service.slug := by
  unfold uniqueSlugForUpdate
  simpa using probe_terminates
    ((store.filter (fun x => decide (x.id ≠ id))).map Service.slug)
    (slugChars name.data)

/-- C10: a successful PATCH on a service can change only
name/category/price/description/image (plus the regenerated slug when a
truthy name is among the updates): the stored providerEmail, providerName,
ratingAvg, embedded reviews and views of the target document are unchanged,
whatever extra keys the request body carries; and when no name is supplied
the slug is unchanged as well. -/
theorem patch_frame (vt : Bool) (tokenEmailRaw queryProviderEmail : String)
    (services : List Service) (sid : String) (body : UpdateBody) (doc : Service)
    (hfind : services.find? (fun s => decide (s.id = sid)) = some doc)
    (hown : vt = true → lowerStr tokenEmailRaw = doc.providerEmail)
    (hprice : 0 ≤ body.price.getD doc.price) :
    ∃ services' doc',
      patchService vt tokenEmailRaw queryProviderEmail services sid body =
        (.ok, services') ∧
      services'.find? (fun s => decide (s.id = sid)) = some doc' ∧
      doc'.providerEmail = doc.providerEmail ∧
      doc'.providerName = doc.providerName ∧
      doc'.ratingAvg = doc.ratingAvg ∧
      doc'.reviews = doc.reviews ∧
      doc'.views = doc.views ∧
      (body.name = none → doc'.slug = doc.slug) := by
  have hdocid : doc.id = sid := by
    have hp := List.find?_some hfind
    simpa using hp
  have hguard : ¬(vt = true ∧ (if vt then lowerStr tokenEmailRaw
      else lowerStr (if queryProviderEmail ≠ "" then queryProviderEmail
        else body.providerEmail.getD "")) ≠ doc.providerEmail) := by
    rintro ⟨hvt, hne⟩
    rw [hvt] at hne
    rw [if_pos rfl] at hne
    exact hne (hown hvt)
  have hprice' : ¬((applyUpdates doc body).price < 0) := not_lt.mpr hprice
  unfold patchService
  rw [hfind]
  dsimp only
  rw [if_neg hguard, if_neg hprice']
  cases hbody : body.name with
  | none =>
    dsimp only
    refine ⟨_, applyUpdates doc body, rfl, ?_, rfl, rfl, rfl, rfl, rfl,
      fun _ => rfl⟩
    exact find?_replaceFirst sid (applyUpdates doc body) hdocid services doc
      hfind
  | some n =>
    by_cases hn : n = ""
    · dsimp only
      rw [if_pos hn]
      refine ⟨_, applyUpdates doc body, rfl, ?_, rfl, rfl, rfl, rfl, rfl, ?_⟩
      · exact find?_replaceFirst sid (applyUpdates doc body) hdocid services
          doc hfind
      · intro hnone
        simp at hnone
    · obtain ⟨sl, hsl, _⟩ := uniqueSlugForUpdate_free services n sid
      dsimp only
      rw [if_neg hn, hsl]
      refine ⟨_, { applyUpdates doc body with slug := sl }, rfl, ?_, rfl, rfl,
        rfl, rfl, rfl, ?_⟩
      · exact find?_replaceFirst sid { applyUpdates doc body with slug := sl }
          hdocid services doc hfind
      · intro hnone
        simp at hnone

/-- C10 sample instantiation: a body that updates name/price and also
carries extra keys (providerEmail, ratingAvg, views, reviews) which the
handler must ignore. -/
theorem patch_frame_sample :
    ∃ services' doc',
      patchService false "" "p@x.com" [svcDemo] "s1" bodyDemo =
        (.ok, services') ∧
      services'.find? (fun s => decide (s.id = "s1")) = some doc' ∧
      doc'.providerEmail = svcDemo.providerEmail ∧
      doc'.providerName = svcDemo.providerName ∧
      doc'.ratingAvg = svcDemo.ratingAvg ∧
      doc'.reviews = svcDemo.reviews ∧
      doc'.views = svcDemo.views ∧
      (bodyDemo.name = none → doc'.slug = svcDemo.slug) :=
  patch_frame false "" "p@x.com" [svcDemo] "s1" bodyDemo svcDemo (by decide)
    (by intro h; cases h) (by norm_num [bodyDemo])

end HomeHero
